import Mathlib

/-!
Verification of the version-bump core of `releasy.py`.

The program manipulates `packaging.version.Version` values through their
internal `_version` tuple, a record with fields `epoch`, `release` (a tuple
of non-negative integers), `pre`/`post`/`dev` (each an optional
`(label, counter)` pair; `post` carries the label `"post"` and `dev` the
label `"dev"` after parsing) and an optional `local` segment list.

`PyVersion` below embeds that record.  `bumpVer` embeds `_bump_ver`
(src/releasy.py lines 44-73): an out-of-bounds tuple access (Python
`IndexError`) is modelled by `Option`, with `none` standing for the raised
exception.  The dance through `_replace` and re-parsing `Version(str(...))`
is the identity on the record for well-formed inputs, so `bumpVer` returns
the replaced record directly.

`cmpVersion` embeds the PEP 440 total order that `packaging` implements in
`_cmpkey`: lexicographic on (epoch, release with trailing zeros removed,
pre-key, post-key, dev-key, local-key), where a missing `pre` counts as
plus infinity (or minus infinity when a `dev` segment is present and
`post` is absent), a missing `post` as minus infinity, a missing `dev` as
plus infinity, and a missing local segment as minus infinity.
-/

/-- A segment of a PEP 440 local version: either numeric or alphanumeric. -/
inductive LocalSeg : Type
  | num (n : Nat) : LocalSeg
  | str (s : String) : LocalSeg
deriving DecidableEq

/-- The internal `_version` record of `packaging.version.Version`. -/
structure PyVersion : Type where
  epoch : Nat
  release : List Nat
  pre : Option (String × Nat)
  post : Option (String × Nat)
  dev : Option (String × Nat)
  loc : Option (List LocalSeg)
deriving DecidableEq

/-- A parsed version always has a non-empty release tuple (the version
regular expression requires at least one numeral). -/
def Valid (v : PyVersion) : Prop := v.release ≠ []

instance (v : PyVersion) : Decidable (Valid v) := by
  unfold Valid
  infer_instance

/-- The release-tuple part of `_bump_ver`: `release[0]`, `release[1]`,
`release[2]` are accessed exactly as the Python code does, so a too-short
tuple yields `none` (an `IndexError`). -/
def bumpRelease (release : List Nat) (level : String) : Option (List Nat) :=
  if level = "major" then
    (release.get? 0).map fun a => [a + 1, 0, 0]
  else if level = "minor" then
    (release.get? 0).bind fun a => (release.get? 1).map fun b => [a, b + 1, 0]
  else
    (release.get? 0).bind fun a => (release.get? 1).bind fun b =>
      (release.get? 2).map fun c => [a, b, c + 1]

/-- Embedding of `_bump_ver` (src/releasy.py lines 44-73).  For
`major`/`minor`/`patch` the release tuple is rebuilt and all of
`dev`/`pre`/`post` are cleared; for the other levels each qualifier is
incremented only when present (`if level == "pre" and pre is not None:`
etc.), and an unrecognized level leaves every field unchanged. -/
def bumpVer (v : PyVersion) (level : String) : Option PyVersion :=
  if level = "major" ∨ level = "minor" ∨ level = "patch" then
    (bumpRelease v.release level).map fun r =>
      { v with release := r, pre := none, post := none, dev := none }
  else
    some { v with
      pre := if level = "pre" then v.pre.map (fun p => (p.1, p.2 + 1)) else v.pre,
      dev := if level = "dev" then v.dev.map (fun p => (p.1, p.2 + 1)) else v.dev,
      post := if level = "post" then v.post.map (fun p => (p.1, p.2 + 1)) else v.post }

/-- `Version.is_prerelease`: true when a dev or pre segment is present. -/
def PyVersion.is_prerelease (v : PyVersion) : Bool := v.dev.isSome || v.pre.isSome

/-- `Version.is_devrelease`: true when a dev segment is present. -/
def PyVersion.is_devrelease (v : PyVersion) : Bool := v.dev.isSome

/-- `Version.is_postrelease`: true when a post segment is present. -/
def PyVersion.is_postrelease (v : PyVersion) : Bool := v.post.isSome

/-- One conditional insertion into the ordered options mapping of
`prompt_bump_version`; the dict is embedded as an association list in
insertion order. -/
def addOpt (opts : List (String × PyVersion)) (cond : Bool) (v : PyVersion)
    (level : String) : Option (List (String × PyVersion)) :=
  if cond then (bumpVer v level).map fun w => opts ++ [(level, w)] else some opts

/-- The options mapping built in `prompt_bump_version`
(src/releasy.py lines 82-88): always `major`, `minor`, `patch`, then
`pre` when `is_prerelease`, `dev` when `is_devrelease`, `post` when
`is_postrelease`, in that insertion order. -/
def availableBumps (v : PyVersion) : Option (List (String × PyVersion)) := do
  let ma ← bumpVer v "major"
  let mi ← bumpVer v "minor"
  let pa ← bumpVer v "patch"
  let o1 := [("major", ma), ("minor", mi), ("patch", pa)]
  let o2 ← addOpt o1 v.is_prerelease v "pre"
  let o3 ← addOpt o2 v.is_devrelease v "dev"
  addOpt o3 v.is_postrelease v "post"

/-- Embedding of `prompt_bump_version` (src/releasy.py lines 76-97).  The
external prompt is modelled by its reply `choice`: `some i` when the user
picks the `i`-th presented entry, `none` on cancellation.  The failed
`assert option_idx is not None` on cancellation is modelled by `none`. -/
def prompt_bump_version (v : PyVersion) (choice : Option Nat) :
    Option PyVersion := do
  let opts ← availableBumps v
  let i ← choice
  let entry ← opts.get? i
  pure entry.2

/-! ### The PEP 440 order implemented by `packaging.version._cmpkey` -/

/-- Three-way comparison of naturals. -/
def cmpN (a b : Nat) : Ordering :=
  if a < b then .lt else if b < a then .gt else .eq

/-- Three-way comparison of strings (Python compares code points
lexicographically, as `String.lt` does). -/
def cmpStr (a b : String) : Ordering :=
  if a < b then .lt else if b < a then .gt else .eq

/-- Comparison of `(label, counter)` pairs, as Python compares tuples. -/
def cmpPair (a b : String × Nat) : Ordering :=
  (cmpStr a.1 b.1).then (cmpN a.2 b.2)

/-- Lexicographic comparison of lists, as Python compares tuples: a strict
prefix sorts first. -/
def cmpList (c : α → α → Ordering) : List α → List α → Ordering
  | [], [] => .eq
  | [], _ :: _ => .lt
  | _ :: _, [] => .gt
  | a :: as, b :: bs =>
    match c a b with
    | .eq => cmpList c as bs
    | o => o

/-- A comparison key extended with minus and plus infinity, as
`packaging` uses `NegativeInfinity` and `Infinity` sentinels. -/
inductive ExtKey (α : Type) : Type
  | negInf : ExtKey α
  | val (a : α) : ExtKey α
  | inf : ExtKey α

/-- Comparison on `ExtKey`. -/
def cmpExt (c : α → α → Ordering) : ExtKey α → ExtKey α → Ordering
  | .negInf, .negInf => .eq
  | .negInf, _ => .lt
  | .val _, .negInf => .gt
  | .val a, .val b => c a b
  | .val _, .inf => .lt
  | .inf, .inf => .eq
  | .inf, _ => .gt

/-- Remove trailing zeros from a release tuple, as `_cmpkey` does before
comparing releases. -/
def stripZeros : List Nat → List Nat
  | [] => []
  | a :: rest =>
    match stripZeros rest with
    | [] => if a == 0 then [] else [a]
    | r => a :: r

/-- The pre-release component of the comparison key: a version with no pre
segment sorts after every pre-release (plus infinity), except that a pure
dev release (dev present, post absent) sorts before everything. -/
def preKey (v : PyVersion) : ExtKey (String × Nat) :=
  match v.pre with
  | some p => .val p
  | none => if v.post.isNone && v.dev.isSome then .negInf else .inf

/-- The post-release component of the comparison key. -/
def postKey (v : PyVersion) : ExtKey (String × Nat) :=
  match v.post with
  | some p => .val p
  | none => .negInf

/-- The dev-release component of the comparison key. -/
def devKey (v : PyVersion) : ExtKey (String × Nat) :=
  match v.dev with
  | some p => .val p
  | none => .inf

/-- Comparison of local version segments: numeric segments sort after
alphanumeric ones. -/
def cmpLocalSeg : LocalSeg → LocalSeg → Ordering
  | .num a, .num b => cmpN a b
  | .num _, .str _ => .gt
  | .str _, .num _ => .lt
  | .str a, .str b => cmpStr a b

/-- The local component of the comparison key. -/
def localKey (v : PyVersion) : ExtKey (List LocalSeg) :=
  match v.loc with
  | some segs => .val segs
  | none => .negInf

/-- The PEP 440 total order on versions, as implemented by
`packaging.version._cmpkey`. -/
def cmpVersion (a b : PyVersion) : Ordering :=
  (cmpN a.epoch b.epoch).then <|
  (cmpList cmpN (stripZeros a.release) (stripZeros b.release)).then <|
  (cmpExt cmpPair (preKey a) (preKey b)).then <|
  (cmpExt cmpPair (postKey a) (postKey b)).then <|
  (cmpExt cmpPair (devKey a) (devKey b)).then <|
  cmpExt (cmpList cmpLocalSeg) (localKey a) (localKey b)

/-- `a < b` in the standard version order. -/
def ltVer (a b : PyVersion) : Prop := cmpVersion a b = .lt

instance (a b : PyVersion) : Decidable (ltVer a b) := by
  unfold ltVer; infer_instance

/-- Does the requested level actually change the version?  `major`,
`minor` and `patch` always do; a qualifier level applies only when the
corresponding qualifier is present. -/
def qualApplies (v : PyVersion) (level : String) : Bool :=
  if level = "pre" then v.pre.isSome
  else if level = "dev" then v.dev.isSome
  else if level = "post" then v.post.isSome
  else true

/-! ### Concrete versions used as test inputs -/

/-- `1.0.0`. -/
def v100 : PyVersion := ⟨0, [1, 0, 0], none, none, none, none⟩

/-- `1.0.0.dev1`. -/
def vdev101 : PyVersion := ⟨0, [1, 0, 0], none, none, some ("dev", 1), none⟩

/-- `1` (a single-component release). -/
def vshort1 : PyVersion := ⟨0, [1], none, none, none, none⟩

/-- `1.4` (a two-component release). -/
def vshort2 : PyVersion := ⟨0, [1, 4], none, none, none, none⟩

/-- `1.2.3`. -/
def v123 : PyVersion := ⟨0, [1, 2, 3], none, none, none, none⟩

/-- `2.0.0rc1`. -/
def vrc : PyVersion := ⟨0, [2, 0, 0], some ("rc", 1), none, none, none⟩

/-- `2.0.0rc2`. -/
def vrc2 : PyVersion := ⟨0, [2, 0, 0], some ("rc", 2), none, none, none⟩

/-- `1.2.3rc1.post2.dev3`: all three qualifiers present. -/
def vfull : PyVersion :=
  ⟨0, [1, 2, 3], some ("rc", 1), some ("post", 2), some ("dev", 3), none⟩

/-- The options mapping computed for `1.0.0`. -/
def opts100 : List (String × PyVersion) :=
  [("major", ⟨0, [2, 0, 0], none, none, none, none⟩),
   ("minor", ⟨0, [1, 1, 0], none, none, none, none⟩),
   ("patch", ⟨0, [1, 0, 1], none, none, none, none⟩)]

/-! ### Basic lemmas about the comparison functions -/

theorem cmpN_refl (a : Nat) : cmpN a a = .eq := by
  simp [cmpN]

theorem cmpN_lt_succ (a : Nat) : cmpN a (a + 1) = .lt := by
  simp [cmpN]

theorem cmpN_eq_lt {a b : Nat} : cmpN a b = .lt ↔ a < b := by
  unfold cmpN
  split
  · simp_all
  · split
    · simp_all
    · simp_all

theorem cmpN_eq_eq {a b : Nat} : cmpN a b = .eq ↔ a = b := by
  unfold cmpN
  split
  · simp; omega
  · split
    · simp; omega
    · simp; omega

theorem cmpStr_refl (s : String) : cmpStr s s = .eq := by
  simp [cmpStr, String.lt_irrefl]

theorem cmpPair_refl (p : String × Nat) : cmpPair p p = .eq := by
  simp [cmpPair, cmpStr_refl, cmpN_refl, Ordering.then]

theorem cmpPair_lt_succ (s : String) (n : Nat) : cmpPair (s, n) (s, n + 1) = .lt := by
  simp [cmpPair, cmpStr_refl, cmpN_lt_succ, Ordering.then]

theorem cmpList_refl (l : List Nat) : cmpList cmpN l l = .eq := by
  induction l with
  | nil => rfl
  | cons a t ih => simp [cmpList, cmpN_refl, ih]

theorem cmpList_nil_ne_gt (t : List Nat) : cmpList cmpN [] t ≠ .gt := by
  cases t <;> simp [cmpList]

theorem cmpList_cons_nil (x : Nat) (xs : List Nat) :
    cmpList cmpN (x :: xs) [] = .gt := rfl

theorem cmpExt_pair_refl (k : ExtKey (String × Nat)) : cmpExt cmpPair k k = .eq := by
  cases k <;> simp [cmpExt, cmpPair_refl]

theorem eq_then (o : Ordering) : Ordering.eq.then o = o := rfl

theorem lt_then (o : Ordering) : Ordering.lt.then o = .lt := rfl

/-- Lexicographic comparison is transitive across a non-strict and a strict
step. -/
theorem cmpList_trans_le_lt :
    ∀ (a b c : List Nat), cmpList cmpN a b ≠ .gt → cmpList cmpN b c = .lt →
      cmpList cmpN a c = .lt := by
  intro a
  induction a with
  | nil =>
    intro b c _ h2
    cases c with
    | nil =>
      cases b with
      | nil => simp [cmpList] at h2
      | cons y ys => simp [cmpList_cons_nil] at h2
    | cons z zs => simp [cmpList]
  | cons x xs ih =>
    intro b c h1 h2
    cases b with
    | nil => simp [cmpList_cons_nil] at h1
    | cons y ys =>
      cases c with
      | nil => simp [cmpList_cons_nil] at h2
      | cons z zs =>
        simp only [cmpList] at h1 h2 ⊢
        cases hxy : cmpN x y with
        | gt => rw [hxy] at h1; exact absurd rfl h1
        | lt =>
          rw [hxy] at h1
          cases hyz : cmpN y z with
          | gt => rw [hyz] at h2; exact absurd h2 (by simp)
          | lt =>
            have : x < z := lt_trans (cmpN_eq_lt.mp hxy) (cmpN_eq_lt.mp hyz)
            rw [cmpN_eq_lt.mpr this]
          | eq =>
            have hz : y = z := cmpN_eq_eq.mp hyz
            rw [cmpN_eq_lt.mpr (hz ▸ cmpN_eq_lt.mp hxy)]
        | eq =>
          have hxey : x = y := cmpN_eq_eq.mp hxy
          rw [hxy] at h1
          cases hyz : cmpN y z with
          | gt => rw [hyz] at h2; exact absurd h2 (by simp)
          | lt => rw [cmpN_eq_lt.mpr (hxey ▸ cmpN_eq_lt.mp hyz)]
          | eq =>
            rw [hyz] at h2
            have hyez : y = z := cmpN_eq_eq.mp hyz
            rw [cmpN_eq_eq.mpr (hxey.trans hyez)]
            exact ih ys zs h1 h2

/-- Removing trailing zeros never makes a release tuple larger. -/
theorem stripZeros_le (l : List Nat) : cmpList cmpN (stripZeros l) l ≠ .gt := by
  induction l with
  | nil => simp [stripZeros, cmpList]
  | cons a t ih =>
    show cmpList cmpN (stripZeros (a :: t)) (a :: t) ≠ .gt
    rw [stripZeros]
    cases h : stripZeros t with
    | nil =>
      by_cases ha : a = 0
      · subst ha
        simp [cmpList]
      · simp only [beq_iff_eq, if_neg ha]
        simp [cmpList, cmpN_refl, cmpList_nil_ne_gt]
    | cons b r =>
      simp only [cmpList, cmpN_refl]
      rw [← h]
      exact ih

theorem stripZeros_major (a : Nat) : stripZeros [a + 1, 0, 0] = [a + 1] := by
  simp [stripZeros]

theorem stripZeros_minor (a b : Nat) : stripZeros [a, b + 1, 0] = [a, b + 1] := by
  simp [stripZeros]

theorem stripZeros_patch (a b c : Nat) : stripZeros [a, b, c + 1] = [a, b, c + 1] := by
  simp [stripZeros]

theorem cmpList_lt_major (r0 : Nat) (t : List Nat) :
    cmpList cmpN (r0 :: t) [r0 + 1] = .lt := by
  simp [cmpList, cmpN_lt_succ]

theorem cmpList_lt_minor (r0 r1 : Nat) (t : List Nat) :
    cmpList cmpN (r0 :: r1 :: t) [r0, r1 + 1] = .lt := by
  simp [cmpList, cmpN_refl, cmpN_lt_succ]

theorem cmpList_lt_patch (r0 r1 r2 : Nat) (t : List Nat) :
    cmpList cmpN (r0 :: r1 :: r2 :: t) [r0, r1, r2 + 1] = .lt := by
  simp [cmpList, cmpN_refl, cmpN_lt_succ]

theorem strip_lt_major (r0 : Nat) (t : List Nat) :
    cmpList cmpN (stripZeros (r0 :: t)) (stripZeros [r0 + 1, 0, 0]) = .lt := by
  rw [stripZeros_major]
  exact cmpList_trans_le_lt _ _ _ (stripZeros_le _) (cmpList_lt_major r0 t)

theorem strip_lt_minor (r0 r1 : Nat) (t : List Nat) :
    cmpList cmpN (stripZeros (r0 :: r1 :: t)) (stripZeros [r0, r1 + 1, 0]) = .lt := by
  rw [stripZeros_minor]
  exact cmpList_trans_le_lt _ _ _ (stripZeros_le _) (cmpList_lt_minor r0 r1 t)

theorem strip_lt_patch (r0 r1 r2 : Nat) (t : List Nat) :
    cmpList cmpN (stripZeros (r0 :: r1 :: r2 :: t)) (stripZeros [r0, r1, r2 + 1]) = .lt := by
  rw [stripZeros_patch]
  exact cmpList_trans_le_lt _ _ _ (stripZeros_le _) (cmpList_lt_patch r0 r1 r2 t)

/-! ### Unfolding lemmas for `bumpVer` -/

theorem bumpVer_major (v : PyVersion) (r0 : Nat) (t : List Nat)
    (h : v.release = r0 :: t) :
    bumpVer v "major"
      = some { v with release := [r0 + 1, 0, 0], pre := none, post := none,
                      dev := none } := by
  unfold bumpVer bumpRelease
  rw [h]
  rfl

theorem bumpVer_minor (v : PyVersion) (r0 r1 : Nat) (t : List Nat)
    (h : v.release = r0 :: r1 :: t) :
    bumpVer v "minor"
      = some { v with release := [r0, r1 + 1, 0], pre := none, post := none,
                      dev := none } := by
  unfold bumpVer bumpRelease
  rw [h]
  rfl

theorem bumpVer_patch (v : PyVersion) (r0 r1 r2 : Nat) (t : List Nat)
    (h : v.release = r0 :: r1 :: r2 :: t) :
    bumpVer v "patch"
      = some { v with release := [r0, r1, r2 + 1], pre := none, post := none,
                      dev := none } := by
  unfold bumpVer bumpRelease
  rw [h]
  rfl

theorem bumpVer_pre_eq (v : PyVersion) :
    bumpVer v "pre" = some { v with pre := v.pre.map fun p => (p.1, p.2 + 1) } := rfl

theorem bumpVer_dev_eq (v : PyVersion) :
    bumpVer v "dev" = some { v with dev := v.dev.map fun p => (p.1, p.2 + 1) } := rfl

theorem bumpVer_post_eq (v : PyVersion) :
    bumpVer v "post" = some { v with post := v.post.map fun p => (p.1, p.2 + 1) } := rfl

theorem bumpVer_pre_noop (v : PyVersion) (h : v.pre = none) :
    bumpVer v "pre" = some v := by
  rw [bumpVer_pre_eq, h]
  cases v
  simp_all

theorem bumpVer_dev_noop (v : PyVersion) (h : v.dev = none) :
    bumpVer v "dev" = some v := by
  rw [bumpVer_dev_eq, h]
  cases v
  simp_all

theorem bumpVer_post_noop (v : PyVersion) (h : v.post = none) :
    bumpVer v "post" = some v := by
  rw [bumpVer_post_eq, h]
  cases v
  simp_all

theorem bumpVer_other_noop (v : PyVersion) (level : String)
    (h1 : level ≠ "major") (h2 : level ≠ "minor") (h3 : level ≠ "patch")
    (h4 : level ≠ "pre") (h5 : level ≠ "dev") (h6 : level ≠ "post") :
    bumpVer v level = some v := by
  unfold bumpVer
  rw [if_neg (by simp [h1, h2, h3]), if_neg h4, if_neg h5, if_neg h6]

/-! ### The bumped version is strictly greater -/

theorem ltVer_release (v : PyVersion) (r : List Nat)
    (h : cmpList cmpN (stripZeros v.release) (stripZeros r) = .lt) :
    ltVer v { v with release := r, pre := none, post := none, dev := none } := by
  unfold ltVer cmpVersion
  simp only [cmpN_refl, eq_then, h, lt_then]

theorem ltVer_pre_bump (v : PyVersion) (s : String) (n : Nat)
    (h : v.pre = some (s, n)) :
    ltVer v { v with pre := some (s, n + 1) } := by
  unfold ltVer cmpVersion
  simp only [cmpN_refl, eq_then, cmpList_refl, preKey, h, cmpExt,
    cmpPair_lt_succ, lt_then]

theorem cmpExt_val (c : α → α → Ordering) (a b : α) :
    cmpExt c (.val a) (.val b) = c a b := rfl

theorem ltVer_dev_bump (v : PyVersion) (s : String) (n : Nat)
    (h : v.dev = some (s, n)) :
    ltVer v { v with dev := some (s, n + 1) } := by
  have hpre : preKey { v with dev := some (s, n + 1) } = preKey v := by
    unfold preKey
    simp [h]
  have hpost : postKey { v with dev := some (s, n + 1) } = postKey v := rfl
  have hdev1 : devKey v = .val (s, n) := by unfold devKey; rw [h]
  have hdev2 : devKey { v with dev := some (s, n + 1) } = .val (s, n + 1) := rfl
  unfold ltVer cmpVersion
  rw [hpre, hpost, hdev1, hdev2]
  simp only [cmpN_refl, eq_then, cmpList_refl, cmpExt_pair_refl, cmpExt_val,
    cmpPair_lt_succ, lt_then]

theorem ltVer_post_bump (v : PyVersion) (s : String) (n : Nat)
    (h : v.post = some (s, n)) :
    ltVer v { v with post := some (s, n + 1) } := by
  have hpre : preKey { v with post := some (s, n + 1) } = preKey v := by
    unfold preKey
    simp [h]
  have hpost1 : postKey v = .val (s, n) := by unfold postKey; rw [h]
  have hpost2 : postKey { v with post := some (s, n + 1) } = .val (s, n + 1) := rfl
  unfold ltVer cmpVersion
  rw [hpre, hpost1, hpost2]
  simp only [cmpN_refl, eq_then, cmpList_refl, cmpExt_pair_refl, cmpExt_val,
    cmpPair_lt_succ, lt_then]

/-! ### Failure of the release bumps on short release tuples -/

theorem bumpVer_major_none (v : PyVersion) (h : v.release.get? 0 = none) :
    bumpVer v "major" = none := by
  cases hrel : v.release with
  | nil =>
    unfold bumpVer bumpRelease
    rw [hrel]
    rfl
  | cons a t =>
    rw [hrel] at h
    simp at h

theorem bumpVer_minor_none (v : PyVersion) (h : v.release.get? 1 = none) :
    bumpVer v "minor" = none := by
  cases hrel : v.release with
  | nil =>
    unfold bumpVer bumpRelease
    rw [hrel]
    rfl
  | cons a t =>
    cases t with
    | nil =>
      unfold bumpVer bumpRelease
      rw [hrel]
      rfl
    | cons b u =>
      rw [hrel] at h
      simp at h

theorem bumpVer_patch_none (v : PyVersion) (h : v.release.get? 2 = none) :
    bumpVer v "patch" = none := by
  cases hrel : v.release with
  | nil =>
    unfold bumpVer bumpRelease
    rw [hrel]
    rfl
  | cons a t =>
    cases t with
    | nil =>
      unfold bumpVer bumpRelease
      rw [hrel]
      rfl
    | cons b u =>
      cases u with
      | nil =>
        unfold bumpVer bumpRelease
        rw [hrel]
        rfl
      | cons c w =>
        rw [hrel] at h
        simp at h

/-! ### Characterization of the options mapping -/

theorem availableBumps_eq (v : PyVersion) (r0 r1 r2 : Nat) (t : List Nat)
    (h : v.release = r0 :: r1 :: r2 :: t) :
    availableBumps v = some (
      [("major", { v with release := [r0 + 1, 0, 0], pre := none, post := none,
                          dev := none }),
       ("minor", { v with release := [r0, r1 + 1, 0], pre := none, post := none,
                          dev := none }),
       ("patch", { v with release := [r0, r1, r2 + 1], pre := none, post := none,
                          dev := none })]
      ++ (if v.is_prerelease then
            [("pre", { v with pre := v.pre.map fun p => (p.1, p.2 + 1) })] else [])
      ++ (if v.is_devrelease then
            [("dev", { v with dev := v.dev.map fun p => (p.1, p.2 + 1) })] else [])
      ++ (if v.is_postrelease then
            [("post", { v with post := v.post.map fun p => (p.1, p.2 + 1) })] else [])) := by
  unfold availableBumps addOpt
  rw [bumpVer_major v r0 _ h, bumpVer_minor v r0 r1 _ h, bumpVer_patch v r0 r1 r2 _ h,
      bumpVer_pre_eq, bumpVer_dev_eq, bumpVer_post_eq]
  cases v.is_prerelease <;> cases v.is_devrelease <;> cases v.is_postrelease <;> simp

theorem availableBumps_release (v : PyVersion) (opts : List (String × PyVersion))
    (h : availableBumps v = some opts) :
    ∃ r0 r1 r2 t, v.release = r0 :: r1 :: r2 :: t := by
  cases hrel : v.release with
  | nil =>
    rw [availableBumps] at h
    rw [bumpVer_major_none v (by rw [hrel]; rfl)] at h
    simp at h
  | cons r0 t0 =>
    cases t0 with
    | nil =>
      rw [availableBumps] at h
      rw [bumpVer_major v r0 [] hrel, bumpVer_minor_none v (by rw [hrel]; rfl)] at h
      simp at h
    | cons r1 t1 =>
      cases t1 with
      | nil =>
        rw [availableBumps] at h
        rw [bumpVer_major v r0 _ hrel, bumpVer_minor v r0 r1 _ hrel,
            bumpVer_patch_none v (by rw [hrel]; rfl)] at h
        simp at h
      | cons r2 t2 => exact ⟨r0, r1, r2, t2, rfl⟩


/-! ### Claim theorems -/

/-- C2: for every version whose release tuple is `(major, minor, patch)`,
`_bump_ver` at level `major` yields release `(major+1, 0, 0)`, at `minor`
yields `(major, minor+1, 0)`, at `patch` yields `(major, minor, patch+1)`,
and in all three cases the resulting pre, dev and post qualifiers are
absent (here: every other field is preserved verbatim, epoch and local
included). -/
theorem C2_bump_release_levels (e ma mi pa : Nat)
    (pre post dev : Option (String × Nat)) (loc : Option (List LocalSeg)) :
    bumpVer ⟨e, [ma, mi, pa], pre, post, dev, loc⟩ "major"
      = some ⟨e, [ma + 1, 0, 0], none, none, none, loc⟩
  ∧ bumpVer ⟨e, [ma, mi, pa], pre, post, dev, loc⟩ "minor"
      = some ⟨e, [ma, mi + 1, 0], none, none, none, loc⟩
  ∧ bumpVer ⟨e, [ma, mi, pa], pre, post, dev, loc⟩ "patch"
      = some ⟨e, [ma, mi, pa + 1], none, none, none, loc⟩ :=
  ⟨rfl, rfl, rfl⟩

/-- C4 counterexample: on `1.0.0`, which carries none of the pre/dev/post
qualifiers, `_bump_ver` at levels `pre`, `dev` and `post` does NOT fail:
it returns the input version unchanged, refuting the claim that it fails
with an `UnsupportedQualifierBump` error. -/
theorem C4_counterexample :
    v100.pre = none ∧ bumpVer v100 "pre" = some v100
  ∧ v100.dev = none ∧ bumpVer v100 "dev" = some v100
  ∧ v100.post = none ∧ bumpVer v100 "post" = some v100 := by
  decide

/-- C4 (amended): for every version lacking the corresponding qualifier,
`_bump_ver` at levels `pre`/`dev`/`post` returns the input version
unchanged (a silent no-op) rather than failing. -/
theorem C4_qualifier_noop (v : PyVersion) :
    (v.pre = none → bumpVer v "pre" = some v)
  ∧ (v.dev = none → bumpVer v "dev" = some v)
  ∧ (v.post = none → bumpVer v "post" = some v) :=
  ⟨bumpVer_pre_noop v, bumpVer_dev_noop v, bumpVer_post_noop v⟩

theorem C4_qualifier_noop_witness :
    v100.pre = none ∧ bumpVer v100 "pre" = some v100 :=
  ⟨rfl, (C4_qualifier_noop v100).1 rfl⟩

/-- C5: when the relevant qualifier is present, `_bump_ver` at level `pre`
increments the pre-release counter and preserves its label, at `dev`
increments the dev counter, and at `post` increments the post counter; in
each case every other field of the version (release and the other two
qualifiers included) is unchanged. -/
theorem C5_qualifier_bumps (v : PyVersion) :
    (∀ s n, v.pre = some (s, n) →
      bumpVer v "pre" = some { v with pre := some (s, n + 1) })
  ∧ (∀ s n, v.dev = some (s, n) →
      bumpVer v "dev" = some { v with dev := some (s, n + 1) })
  ∧ (∀ s n, v.post = some (s, n) →
      bumpVer v "post" = some { v with post := some (s, n + 1) }) := by
  refine ⟨fun s n h => ?_, fun s n h => ?_, fun s n h => ?_⟩
  · rw [bumpVer_pre_eq, h]
    rfl
  · rw [bumpVer_dev_eq, h]
    rfl
  · rw [bumpVer_post_eq, h]
    rfl

theorem C5_qualifier_bumps_witness :
    vfull.pre = some ("rc", 1)
  ∧ bumpVer vfull "pre" = some { vfull with pre := some ("rc", 2) }
  ∧ bumpVer vfull "dev" = some { vfull with dev := some ("dev", 4) }
  ∧ bumpVer vfull "post" = some { vfull with post := some ("post", 3) } :=
  ⟨rfl, (C5_qualifier_bumps vfull).1 "rc" 1 rfl,
   (C5_qualifier_bumps vfull).2.1 "dev" 3 rfl,
   (C5_qualifier_bumps vfull).2.2 "post" 2 rfl⟩

/-- C7 counterexample: with the unrecognized level `"foo"`, `_bump_ver`
does NOT fail: it returns the input version unchanged, refuting the claim
that it fails with an `InvalidBumpLevel` error. -/
theorem C7_counterexample : bumpVer v100 "foo" = some v100 := by
  decide

/-- C7 (amended): for every level outside the six recognized values,
`_bump_ver` returns the input version unchanged (a silent no-op) rather
than failing. -/
theorem C7_unrecognized_noop (v : PyVersion) (level : String)
    (h : level ∉ (["major", "minor", "patch", "pre", "dev", "post"] : List String)) :
    bumpVer v level = some v := by
  simp only [List.mem_cons, List.not_mem_nil, or_false, not_or] at h
  obtain ⟨h1, h2, h3, h4, h5, h6⟩ := h
  exact bumpVer_other_noop v level h1 h2 h3 h4 h5 h6

theorem C7_unrecognized_noop_witness :
    "foo" ∉ (["major", "minor", "patch", "pre", "dev", "post"] : List String)
  ∧ bumpVer v100 "foo" = some v100 :=
  ⟨by decide, C7_unrecognized_noop v100 "foo" (by decide)⟩

/-- C9 (implicit): calling `_bump_ver` with a `pre`/`dev`/`post` level on
a version lacking that qualifier, or with any unrecognized level string,
returns normally with the version unchanged rather than raising. -/
theorem C9_silent_noop (v : PyVersion) (level : String) :
    ((level = "pre" ∧ v.pre = none) ∨ (level = "dev" ∧ v.dev = none)
      ∨ (level = "post" ∧ v.post = none)
      ∨ level ∉ (["major", "minor", "patch", "pre", "dev", "post"] : List String)) →
    bumpVer v level = some v := by
  intro h
  rcases h with ⟨rfl, hp⟩ | ⟨rfl, hd⟩ | ⟨rfl, hpo⟩ | hn
  · exact bumpVer_pre_noop v hp
  · exact bumpVer_dev_noop v hd
  · exact bumpVer_post_noop v hpo
  · simp only [List.mem_cons, List.not_mem_nil, or_false, not_or] at hn
    obtain ⟨h1, h2, h3, h4, h5, h6⟩ := hn
    exact bumpVer_other_noop v level h1 h2 h3 h4 h5 h6

theorem C9_silent_noop_witness :
    (("pre" = "pre" ∧ v100.pre = none)
      ∨ ("pre" = "dev" ∧ v100.dev = none)
      ∨ ("pre" = "post" ∧ v100.post = none)
      ∨ "pre" ∉ (["major", "minor", "patch", "pre", "dev", "post"] : List String))
  ∧ bumpVer v100 "pre" = some v100 :=
  ⟨Or.inl ⟨rfl, rfl⟩, C9_silent_noop v100 "pre" (Or.inl ⟨rfl, rfl⟩)⟩

/-- C10 (implicit): when the release tuple has at least three components
every index accessed by a `major`/`minor`/`patch` bump is in bounds and
the bump returns a version; on a one-component release the `minor` and
`patch` bumps fail with an index error, and on a two-component release the
`patch` bump fails. -/
theorem C10_release_indexing (v : PyVersion) :
    (3 ≤ v.release.length →
       (bumpVer v "major").isSome = true ∧ (bumpVer v "minor").isSome = true
         ∧ (bumpVer v "patch").isSome = true)
  ∧ (v.release.length = 1 →
       bumpVer v "minor" = none ∧ bumpVer v "patch" = none)
  ∧ (v.release.length = 2 → bumpVer v "patch" = none) := by
  refine ⟨?_, ?_, ?_⟩
  · intro h3
    cases hrel : v.release with
    | nil => rw [hrel] at h3; simp at h3
    | cons r0 t0 =>
      cases t0 with
      | nil => rw [hrel] at h3; simp at h3
      | cons r1 t1 =>
        cases t1 with
        | nil => rw [hrel] at h3; simp at h3
        | cons r2 t2 =>
          rw [bumpVer_major v r0 _ hrel, bumpVer_minor v r0 r1 _ hrel,
              bumpVer_patch v r0 r1 r2 _ hrel]
          exact ⟨rfl, rfl, rfl⟩
  · intro h1
    refine ⟨bumpVer_minor_none v ?_, bumpVer_patch_none v ?_⟩ <;>
      · cases hrel : v.release with
        | nil => rfl
        | cons r0 t0 =>
          rw [hrel] at h1
          simp at h1
          rw [h1]
          rfl
  · intro h2
    apply bumpVer_patch_none v
    cases hrel : v.release with
    | nil => rfl
    | cons r0 t0 =>
      cases t0 with
      | nil => rw [hrel] at h2; simp at h2
      | cons r1 t1 =>
        rw [hrel] at h2
        simp at h2
        rw [h2]
        rfl

theorem C10_release_indexing_witness :
    (3 ≤ v123.release.length
      ∧ (bumpVer v123 "major").isSome = true ∧ (bumpVer v123 "minor").isSome = true
      ∧ (bumpVer v123 "patch").isSome = true)
  ∧ (vshort1.release.length = 1
      ∧ bumpVer vshort1 "minor" = none ∧ bumpVer vshort1 "patch" = none)
  ∧ (vshort2.release.length = 2 ∧ bumpVer vshort2 "patch" = none) :=
  ⟨⟨by decide, (C10_release_indexing v123).1 (by decide)⟩,
   ⟨by decide, (C10_release_indexing vshort1).2.1 (by decide)⟩,
   ⟨by decide, (C10_release_indexing vshort2).2.2 (by decide)⟩⟩

/-- C6 counterexample: `1` is a valid version (one-component release), yet
the `minor` bump raises an index error instead of returning a strictly
greater version, refuting the claim quantified over every valid version
including those whose release tuple has fewer than three components. -/
theorem C6_counterexample :
    Valid vshort1 ∧ bumpVer vshort1 "minor" = none ∧ bumpVer vshort1 "patch" = none := by
  refine ⟨by decide, by decide, by decide⟩

/-- C6 (amended): for every valid version the `major` bump returns a
strictly greater version with all qualifiers absent; the `minor` bump does
so whenever the release tuple has at least two components, and the `patch`
bump whenever it has at least three. -/
theorem C6_release_bumps_increase (v : PyVersion) (hv : Valid v) :
    (∃ w, bumpVer v "major" = some w ∧ ltVer v w
       ∧ w.pre = none ∧ w.dev = none ∧ w.post = none)
  ∧ (2 ≤ v.release.length →
      ∃ w, bumpVer v "minor" = some w ∧ ltVer v w
        ∧ w.pre = none ∧ w.dev = none ∧ w.post = none)
  ∧ (3 ≤ v.release.length →
      ∃ w, bumpVer v "patch" = some w ∧ ltVer v w
        ∧ w.pre = none ∧ w.dev = none ∧ w.post = none) := by
  refine ⟨?_, ?_, ?_⟩
  · cases hrel : v.release with
    | nil => exact absurd hrel hv
    | cons r0 t =>
      refine ⟨_, bumpVer_major v r0 t hrel, ?_, rfl, rfl, rfl⟩
      apply ltVer_release
      rw [hrel]
      exact strip_lt_major r0 t
  · intro h2
    cases hrel : v.release with
    | nil => rw [hrel] at h2; simp at h2
    | cons r0 t0 =>
      cases t0 with
      | nil => rw [hrel] at h2; simp at h2
      | cons r1 t1 =>
        refine ⟨_, bumpVer_minor v r0 r1 t1 hrel, ?_, rfl, rfl, rfl⟩
        apply ltVer_release
        rw [hrel]
        exact strip_lt_minor r0 r1 t1
  · intro h3
    cases hrel : v.release with
    | nil => rw [hrel] at h3; simp at h3
    | cons r0 t0 =>
      cases t0 with
      | nil => rw [hrel] at h3; simp at h3
      | cons r1 t1 =>
        cases t1 with
        | nil => rw [hrel] at h3; simp at h3
        | cons r2 t2 =>
          refine ⟨_, bumpVer_patch v r0 r1 r2 t2 hrel, ?_, rfl, rfl, rfl⟩
          apply ltVer_release
          rw [hrel]
          exact strip_lt_patch r0 r1 r2 t2

theorem C6_release_bumps_increase_witness :
    Valid v100
  ∧ (∃ w, bumpVer v100 "major" = some w ∧ ltVer v100 w
       ∧ w.pre = none ∧ w.dev = none ∧ w.post = none)
  ∧ (∃ w, bumpVer v100 "minor" = some w ∧ ltVer v100 w
       ∧ w.pre = none ∧ w.dev = none ∧ w.post = none)
  ∧ (∃ w, bumpVer v100 "patch" = some w ∧ ltVer v100 w
       ∧ w.pre = none ∧ w.dev = none ∧ w.post = none) :=
  ⟨by decide, (C6_release_bumps_increase v100 (by decide)).1,
   (C6_release_bumps_increase v100 (by decide)).2.1 (by decide),
   (C6_release_bumps_increase v100 (by decide)).2.2 (by decide)⟩

/-- C1 counterexample: `1.0.0` is valid and `pre` is a recognized
BumpLevel, yet `_bump_ver(1.0.0, "pre")` returns `1.0.0` itself, which is
not strictly greater than the input, refuting the claim that the bump
always produces a strictly greater version. -/
theorem C1_counterexample :
    Valid v100
  ∧ "pre" ∈ (["major", "minor", "patch", "pre", "dev", "post"] : List String)
  ∧ bumpVer v100 "pre" = some v100
  ∧ ¬ ltVer v100 v100 := by
  refine ⟨by decide, by decide, by decide, by decide⟩

/-- C1 (amended): whenever `_bump_ver(v, level)` returns a version `w` for
a recognized level, `w` is strictly greater than `v` provided the level
actually applies (always for `major`/`minor`/`patch`; for
`pre`/`dev`/`post` only when `v` carries that qualifier); when a
qualifier level does not apply, `w` equals `v` (silent no-op). -/
theorem C1_bump_strictly_greater (v w : PyVersion) (level : String)
    (hlev : level ∈ (["major", "minor", "patch", "pre", "dev", "post"] : List String))
    (hw : bumpVer v level = some w) :
    (qualApplies v level = true → ltVer v w)
  ∧ (qualApplies v level = false → w = v) := by
  simp only [List.mem_cons, List.not_mem_nil, or_false] at hlev
  rcases hlev with rfl | rfl | rfl | rfl | rfl | rfl
  · refine ⟨fun _ => ?_, fun hfalse => ?_⟩
    · cases hrel : v.release with
      | nil =>
        rw [bumpVer_major_none v (by rw [hrel]; rfl)] at hw
        simp at hw
      | cons r0 t =>
        rw [bumpVer_major v r0 t hrel] at hw
        have hww := Option.some.inj hw
        subst hww
        apply ltVer_release
        rw [hrel]
        exact strip_lt_major r0 t
    · simp [qualApplies] at hfalse
  · refine ⟨fun _ => ?_, fun hfalse => ?_⟩
    · cases hrel : v.release with
      | nil =>
        rw [bumpVer_minor_none v (by rw [hrel]; rfl)] at hw
        simp at hw
      | cons r0 t0 =>
        cases t0 with
        | nil =>
          rw [bumpVer_minor_none v (by rw [hrel]; rfl)] at hw
          simp at hw
        | cons r1 t1 =>
          rw [bumpVer_minor v r0 r1 t1 hrel] at hw
          have hww := Option.some.inj hw
          subst hww
          apply ltVer_release
          rw [hrel]
          exact strip_lt_minor r0 r1 t1
    · simp [qualApplies] at hfalse
  · refine ⟨fun _ => ?_, fun hfalse => ?_⟩
    · cases hrel : v.release with
      | nil =>
        rw [bumpVer_patch_none v (by rw [hrel]; rfl)] at hw
        simp at hw
      | cons r0 t0 =>
        cases t0 with
        | nil =>
          rw [bumpVer_patch_none v (by rw [hrel]; rfl)] at hw
          simp at hw
        | cons r1 t1 =>
          cases t1 with
          | nil =>
            rw [bumpVer_patch_none v (by rw [hrel]; rfl)] at hw
            simp at hw
          | cons r2 t2 =>
            rw [bumpVer_patch v r0 r1 r2 t2 hrel] at hw
            have hww := Option.some.inj hw
            subst hww
            apply ltVer_release
            rw [hrel]
            exact strip_lt_patch r0 r1 r2 t2
    · simp [qualApplies] at hfalse
  · refine ⟨fun happ => ?_, fun hnapp => ?_⟩
    · have hps : v.pre.isSome = true := happ
      cases hp : v.pre with
      | none => rw [hp] at hps; simp at hps
      | some p =>
        obtain ⟨s, n⟩ := p
        rw [bumpVer_pre_eq, hp] at hw
        simp only [Option.map_some'] at hw
        have hww := Option.some.inj hw
        subst hww
        exact ltVer_pre_bump v s n hp
    · have hps : v.pre.isSome = false := hnapp
      cases hp : v.pre with
      | none =>
        rw [bumpVer_pre_noop v hp] at hw
        exact (Option.some.inj hw).symm
      | some p => rw [hp] at hps; simp at hps
  · refine ⟨fun happ => ?_, fun hnapp => ?_⟩
    · have hds : v.dev.isSome = true := happ
      cases hd : v.dev with
      | none => rw [hd] at hds; simp at hds
      | some p =>
        obtain ⟨s, n⟩ := p
        rw [bumpVer_dev_eq, hd] at hw
        simp only [Option.map_some'] at hw
        have hww := Option.some.inj hw
        subst hww
        exact ltVer_dev_bump v s n hd
    · have hds : v.dev.isSome = false := hnapp
      cases hd : v.dev with
      | none =>
        rw [bumpVer_dev_noop v hd] at hw
        exact (Option.some.inj hw).symm
      | some p => rw [hd] at hds; simp at hds
  · refine ⟨fun happ => ?_, fun hnapp => ?_⟩
    · have hpos : v.post.isSome = true := happ
      cases hpo : v.post with
      | none => rw [hpo] at hpos; simp at hpos
      | some p =>
        obtain ⟨s, n⟩ := p
        rw [bumpVer_post_eq, hpo] at hw
        simp only [Option.map_some'] at hw
        have hww := Option.some.inj hw
        subst hww
        exact ltVer_post_bump v s n hpo
    · have hpos : v.post.isSome = false := hnapp
      cases hpo : v.post with
      | none =>
        rw [bumpVer_post_noop v hpo] at hw
        exact (Option.some.inj hw).symm
      | some p => rw [hpo] at hpos; simp at hpos

theorem C1_bump_strictly_greater_witness :
    qualApplies vrc "pre" = true ∧ ltVer vrc vrc2 :=
  ⟨by decide, (C1_bump_strictly_greater vrc vrc2 "pre" (by decide) (by decide)).1
    (by decide)⟩

/-- C3 counterexample: `1.0.0.dev1` carries no pre-release qualifier
(`pre` is absent), yet the options mapping built in `prompt_bump_version`
contains a `pre` entry (because `Version.is_prerelease` is also true for
dev releases), refuting the claim that a `pre` entry is present iff the
version carries a pre-release qualifier.  The `pre` entry even maps to the
version itself, since the `pre` bump is a no-op here. -/
theorem C3_counterexample :
    vdev101.pre = none
  ∧ (availableBumps vdev101).map (fun opts => opts.map Prod.fst)
      = some ["major", "minor", "patch", "pre", "dev"] := by
  refine ⟨rfl, by decide⟩

/-- C3 (amended): whenever the options mapping is built, it consists of
entries for `major`, `minor` and `patch` computed via `_bump_ver`,
followed by a `pre` entry iff the version is a pre-release in the
`packaging` sense (it carries a pre-release OR a dev qualifier), a `dev`
entry iff it carries a dev qualifier, and a `post` entry iff it carries a
post qualifier, in exactly the order major, minor, patch, pre, dev, post,
every entry's value being computed via `_bump_ver` at its level. -/
theorem C3_option_set (v : PyVersion) (opts : List (String × PyVersion))
    (h : availableBumps v = some opts) :
    ∃ ma mi pa wpre wdev wpost,
      bumpVer v "major" = some ma ∧ bumpVer v "minor" = some mi
    ∧ bumpVer v "patch" = some pa ∧ bumpVer v "pre" = some wpre
    ∧ bumpVer v "dev" = some wdev ∧ bumpVer v "post" = some wpost
    ∧ opts = [("major", ma), ("minor", mi), ("patch", pa)]
        ++ (if v.is_prerelease then [("pre", wpre)] else [])
        ++ (if v.is_devrelease then [("dev", wdev)] else [])
        ++ (if v.is_postrelease then [("post", wpost)] else []) := by
  obtain ⟨r0, r1, r2, t, hrel⟩ := availableBumps_release v opts h
  rw [availableBumps_eq v r0 r1 r2 t hrel] at h
  exact ⟨_, _, _, _, _, _, bumpVer_major v r0 _ hrel, bumpVer_minor v r0 r1 _ hrel,
    bumpVer_patch v r0 r1 r2 _ hrel, bumpVer_pre_eq v, bumpVer_dev_eq v,
    bumpVer_post_eq v, (Option.some.inj h).symm⟩

theorem C3_option_set_witness :
    availableBumps v100 = some opts100
  ∧ ∃ ma mi pa wpre wdev wpost,
      bumpVer v100 "major" = some ma ∧ bumpVer v100 "minor" = some mi
    ∧ bumpVer v100 "patch" = some pa ∧ bumpVer v100 "pre" = some wpre
    ∧ bumpVer v100 "dev" = some wdev ∧ bumpVer v100 "post" = some wpost
    ∧ opts100 = [("major", ma), ("minor", mi), ("patch", pa)]
        ++ (if v100.is_prerelease then [("pre", wpre)] else [])
        ++ (if v100.is_devrelease then [("dev", wdev)] else [])
        ++ (if v100.is_postrelease then [("post", wpost)] else []) :=
  ⟨by decide, C3_option_set v100 opts100 (by decide)⟩

/-- C8: when the external prompt returns index `i` into the presented
label list, `prompt_bump_version` returns the version stored at position
`i` of the ordered options mapping; when the prompt reports cancellation,
it fails (the `assert option_idx is not None` precondition) instead of
returning a version. -/
theorem C8_selection (v : PyVersion) (opts : List (String × PyVersion))
    (h : availableBumps v = some opts) (i : Nat) (entry : String × PyVersion)
    (he : opts.get? i = some entry) :
    prompt_bump_version v (some i) = some entry.2
  ∧ prompt_bump_version v none = none := by
  unfold prompt_bump_version
  rw [h]
  constructor
  · rw [List.get?_eq_getElem?] at he
    simp [he]
  · simp

theorem C8_selection_witness :
    availableBumps v100 = some opts100
  ∧ opts100.get? 1 = some ("minor", ⟨0, [1, 1, 0], none, none, none, none⟩)
  ∧ prompt_bump_version v100 (some 1)
      = some (("minor", (⟨0, [1, 1, 0], none, none, none, none⟩ : PyVersion))).2
  ∧ prompt_bump_version v100 none = none :=
  ⟨by decide, by decide,
   (C8_selection v100 opts100 (by decide) 1
     ("minor", ⟨0, [1, 1, 0], none, none, none, none⟩) (by decide)).1,
   (C8_selection v100 opts100 (by decide) 1
     ("minor", ⟨0, [1, 1, 0], none, none, none, none⟩) (by decide)).2⟩
